import Mathlib

/-!
Shallow embedding of the core of `pgr866/ScreenRecorder` (`src/main.py`):
the audio-route planning and ffmpeg command synthesis in `main`
(lines 199-233), the post-processing probe/trim pass (lines 280-301),
and the idempotent audio cleanup (lines 26-39, 48-52).
-/

/-- Path of the bundled ffmpeg executable (src/main.py line 21).  The actual
value depends on the process working directory; none of the properties below
depend on it, so it is modelled as a fixed string. -/
def FFMPEG_EXE : String := "ffmpeg.exe"

/-- One element of the `audio_inputs` list built in `main`
(src/main.py lines 206-212): the Python tuple `(index, delay_ms, label)`,
where `index` is the ffmpeg input index used in the filter graph references
such as `[1:a]`, `delay` is the adelay amount in milliseconds and `label`
the filter-graph output label. -/
structure AudioInput where
  idx : Nat
  delay : Nat
  label : String
deriving DecidableEq

/-- src/main.py lines 206-212: the `audio_inputs` list derived from the two
flags.  When system audio is enabled a tuple `(1, 600, "[a_sys]")` is
appended; when the microphone is enabled a tuple
`(len(audio_inputs)+1, 1200 if system_audio else 500,
"[a_mic]" if system_audio else "[a_out]")` is appended. -/
def audio_inputs (system_audio microphone : Bool) : List AudioInput :=
  let inputs : List AudioInput := []
  let inputs := if system_audio then inputs ++ [⟨1, 600, "[a_sys]"⟩] else inputs
  if microphone then
    inputs ++ [⟨inputs.length + 1,
               if system_audio then 1200 else 500,
               if system_audio then "[a_mic]" else "[a_out]"⟩]
  else inputs

/-- src/main.py line 216: the adelay filter stage synthesized for one audio
input: `f"[{i}:a]adelay={d}|{d}{l}"`. -/
def delayFilter (a : AudioInput) : String :=
  "[" ++ toString a.idx ++ ":a]adelay=" ++ toString a.delay ++ "|"
    ++ toString a.delay ++ a.label

/-- src/main.py lines 213-218: the `audio_filters` list: one adelay stage per
audio input, followed (only when exactly two inputs exist) by the amerge
stage combining both delayed labels into `[a_out]`. -/
def audio_filters (system_audio microphone : Bool) : List String :=
  let inputs := audio_inputs system_audio microphone
  let filters := inputs.map delayFilter
  if inputs.length = 2 then
    filters ++ [(inputs.getD 0 ⟨0, 0, ""⟩).label ++ (inputs.getD 1 ⟨0, 0, ""⟩).label
                ++ "amerge=inputs=2[a_out]"]
  else filters

/-- src/main.py lines 214-221: the `audio_map` string: empty when no audio
input exists, `"-map [a_out]"` when two exist (the merged stream), and
`"-map " + label` of the sole input otherwise. -/
def audio_map (system_audio microphone : Bool) : String :=
  let inputs := audio_inputs system_audio microphone
  if inputs.isEmpty then ""
  else if inputs.length = 2 then "-map [a_out]"
  else "-map " ++ (inputs.getD 0 ⟨0, 0, ""⟩).label

/-- Python `";".join(...)` (src/main.py line 223). -/
def joinWith (sep : String) : List String → String
  | [] => ""
  | [x] => x
  | x :: xs => x ++ sep ++ joinWith sep xs

/-- Helper for `shlexSplit`: accumulate the current word (in reverse) while
scanning the character list, emitting a word at each space. -/
def splitWordsAux : List Char → List Char → List String
  | [], acc => if acc.isEmpty then [] else [acc.reverse.asString]
  | ' ' :: cs, acc =>
    if acc.isEmpty then splitWordsAux cs []
    else acc.reverse.asString :: splitWordsAux cs []
  | c :: cs, acc => splitWordsAux cs (c :: acc)

/-- Model of Python `shlex.split` adequate for the quote-free, single-space
`audio_map` strings this program builds (src/main.py line 226): split the
string at spaces. -/
def shlexSplit (s : String) : List String := splitWordsAux s.data []

/-- The inputs `main` feeds into its command construction, after the output
path (src/main.py lines 179-184) and the device names (lines 186-196) have
been resolved: the CLI configuration plus the resolved default-microphone
friendly name and output file path. -/
structure Args where
  resolution : String
  fps : Nat
  system_audio : Bool
  microphone : Bool
  show_mouse : Bool
  duration : Option Nat
  input_device : String
  output_file : String
deriving DecidableEq

/-- src/main.py lines 199-205: the leading video-capture part of the ffmpeg
command (gdigrab over the whole desktop). -/
def videoInputArgs (a : Args) : List String :=
  [FFMPEG_EXE, "-y", "-f", "gdigrab",
   "-framerate", toString a.fps,
   "-video_size", a.resolution,
   "-draw_mouse", if a.show_mouse then "1" else "0",
   "-i", "desktop"]

/-- src/main.py lines 207-208: the dshow input for the virtual-cable capture
endpoint, present only when system audio is enabled. -/
def sysAudioArgs (a : Args) : List String :=
  if a.system_audio then
    ["-f", "dshow", "-i", "audio=CABLE Output (VB-Audio Virtual Cable)"]
  else []

/-- src/main.py lines 210-211: the dshow input for the resolved microphone
device, present only when the microphone is enabled. -/
def micAudioArgs (a : Args) : List String :=
  if a.microphone then ["-f", "dshow", "-i", "audio=" ++ a.input_device] else []

/-- src/main.py lines 222-223: `['-filter_complex', ';'.join(audio_filters)]`
appended only when `audio_filters` is non-empty. -/
def filterComplexArgs (a : Args) : List String :=
  let filters := audio_filters a.system_audio a.microphone
  if filters.isEmpty then [] else ["-filter_complex", joinWith ";" filters]

/-- src/main.py lines 225-226: `shlex.split(audio_map)` appended only when
`audio_map` is non-empty. -/
def audioMapArgs (a : Args) : List String :=
  let m := audio_map a.system_audio a.microphone
  if m = "" then [] else shlexSplit m

/-- src/main.py lines 228-229: the audio codec arguments, appended only when
`audio_filters` is non-empty. -/
def audioCodecArgs (a : Args) : List String :=
  if (audio_filters a.system_audio a.microphone).isEmpty then []
  else ["-c:a", "aac", "-b:a", "192k", "-ac", "2"]

/-- src/main.py lines 231-232: `if args.duration: cmd += ['-t',
str(args.duration + 4)]`.  Python truthiness makes both `None` and `0`
skip the append. -/
def durationArgs : Option Nat → List String
  | some d => if d ≠ 0 then ["-t", toString (d + 4)] else []
  | none => []

/-- src/main.py lines 199-230: the recording command up to and including
`['-threads', '0']`, in the exact order the source appends its pieces. -/
def buildRecordCmdCore (a : Args) : List String :=
  videoInputArgs a ++ sysAudioArgs a ++ micAudioArgs a
  ++ filterComplexArgs a ++ ["-map", "0:v"] ++ audioMapArgs a
  ++ ["-c:v", "libx264", "-crf", "20", "-preset", "ultrafast", "-pix_fmt", "yuv420p"]
  ++ audioCodecArgs a ++ ["-threads", "0"]

/-- src/main.py lines 199-233: the complete synthesized recording command,
ending with the optional hard duration limit and the output path. -/
def buildRecordCmd (a : Args) : List String :=
  buildRecordCmdCore a ++ durationArgs a.duration ++ [a.output_file]

/-- Take the maximal leading run of decimal digits off a character list,
returning the run and the rest.  A greedy `\d+` in the duration pattern is
always followed by a non-digit literal, so maximal munch is exactly the
regex behaviour. -/
def takeDigits : List Char → List Char × List Char
  | [] => ([], [])
  | c :: cs =>
    if c.isDigit then
      let p := takeDigits cs
      (c :: p.1, p.2)
    else ([], c :: cs)

/-- Numeric value of a list of decimal digit characters. -/
def digitsVal (ds : List Char) : Nat :=
  ds.foldl (fun n c => 10 * n + (c.toNat - 48)) 0

/-- Attempt to match the tail `(\d+):(\d+):(\d+\.\d+)` of the duration
pattern (src/main.py line 287) at the start of the character list, returning
the captured hours, minutes and (fractional) seconds. -/
def matchHMS (cs : List Char) : Option (Nat × Nat × Rat) :=
  let ph := takeDigits cs
  if ph.1.isEmpty then none else
  match ph.2 with
  | ':' :: r2 =>
    let pm := takeDigits r2
    if pm.1.isEmpty then none else
    match pm.2 with
    | ':' :: r4 =>
      let ps := takeDigits r4
      if ps.1.isEmpty then none else
      match ps.2 with
      | '.' :: r6 =>
        let pf := takeDigits r6
        if pf.1.isEmpty then none else
          some (digitsVal ph.1, digitsVal pm.1,
            (digitsVal ps.1 : Rat) + (digitsVal pf.1 : Rat) / (10 : Rat) ^ pf.1.length)
      | _ => none
    | _ => none
  | _ => none

/-- `re.search` of `r"Duration: (\d+):(\d+):(\d+\.\d+)"` (src/main.py
line 287): try the pattern at every position, left to right, over the
probe's diagnostic text. -/
def searchDuration : List Char → Option (Nat × Nat × Rat)
  | [] => none
  | c :: cs =>
    if ("Duration: ".data).isPrefixOf (c :: cs) then
      match matchHMS ((c :: cs).drop 10) with
      | some r => some r
      | none => searchDuration cs
    else searchDuration cs

/-- The duration line matched out of the probe output, if any. -/
def findDuration (s : String) : Option (Nat × Nat × Rat) :=
  searchDuration s.data

/-- src/main.py line 288: `duration = int(h)*3600 + int(m)*60 + float(s)`. -/
def durationOf (h m : Nat) (s : Rat) : Rat := h * 3600 + m * 60 + s

/-- src/main.py line 291: the `-ss` trim start offset,
`4 if duration > 4 else 0`. -/
def startOffset (duration : Rat) : Rat := if duration > 4 then 4 else 0

/-- src/main.py line 292: the `-t` output span of the re-encode, which is the
full probed duration (not the duration minus the offset). -/
def outputSpan (duration : Rat) : Rat := duration

/-- src/main.py lines 289-299: the post-processing re-encode command, ending
at the temporary sibling path `output_file + ".tmp.mp4"` (line 280). -/
def postCmd (output_file : String) (duration : Rat) : List String :=
  [FFMPEG_EXE, "-y", "-i", output_file,
   "-ss", toString (startOffset duration),
   "-t", toString (outputSpan duration),
   "-c:v", "libx264",
   "-preset", "medium",
   "-crf", "20",
   "-c:a", "aac",
   "-b:a", "192k",
   output_file ++ ".tmp.mp4"]

/-- The externally visible steps of the post-processing pass: running the
probe, running the re-encode, and replacing the original file with the
temporary one. -/
inductive PostAction where
  | probe (cmd : List String)
  | reencode (cmd : List String)
  | replace (src dst : String)
deriving DecidableEq

/-- src/main.py lines 280-301: probe the raw file, parse the `Duration:`
line out of the probe's diagnostic text, re-encode from the computed start
offset for the full probed duration into a temporary sibling, and replace
the original.  When the regex does not match, `.groups()` is called on
`None` and raises, so the pass stops after the probe: the result is an
error and the performed-action trace holds neither a re-encode nor a
replace. -/
def postProcess (output_file : String) (probe_output : String) :
    List PostAction × Except String Unit :=
  let probed := [PostAction.probe [FFMPEG_EXE, "-i", output_file]]
  match findDuration probe_output with
  | none => (probed, Except.error "AttributeError")
  | some (h, m, s) =>
    let duration := durationOf h m s
    (probed ++ [PostAction.reencode (postCmd output_file duration),
                PostAction.replace (output_file ++ ".tmp.mp4") output_file],
     Except.ok ())

/-- The two teardown steps of `cleanup_audio` (src/main.py lines 38-39). -/
inductive CleanupAction where
  | stopRepeater
  | uninstallCable
deriving DecidableEq

/-- Process-wide audio-cleanup state: the `_cleanup_done` flag
(src/main.py line 26) together with the trace of teardown actions performed
so far, in order. -/
structure AudioState where
  cleanup_done : Bool
  trace : List CleanupAction
deriving DecidableEq

/-- The state at interpreter start: flag clear, nothing performed yet
(src/main.py line 26). -/
def initialAudioState : AudioState := ⟨false, []⟩

/-- src/main.py lines 28-39: `cleanup_audio` returns immediately when
`_cleanup_done` is already set; otherwise it sets the flag and performs the
two teardown steps (stop the audio repeater, uninstall the virtual cable
driver). -/
def cleanup_audio (s : AudioState) : AudioState :=
  if s.cleanup_done then s
  else { cleanup_done := true,
         trace := s.trace ++ [CleanupAction.stopRepeater, CleanupAction.uninstallCable] }

/-- src/main.py lines 48-52: the console control handler invokes
`cleanup_audio` for the close (2), logoff (5) and shutdown (6) events and
does nothing otherwise. -/
def console_close_handler (event : Nat) (s : AudioState) : AudioState :=
  if event = 2 ∨ event = 5 ∨ event = 6 then cleanup_audio s else s

/-- Whether `pat` occurs as a contiguous run inside `cs`: used to state that
a filter string mentions a given filter name such as `amerge`. -/
def subOccurs (pat : List Char) : List Char → Bool
  | [] => pat.isEmpty
  | c :: cs => pat.isPrefixOf (c :: cs) || subOccurs pat cs

/-! Helper lemmas. -/

theorem mem_toDigitsCore10 :
    ∀ (fuel n : Nat) (ds : List Char) (c : Char),
      c ∈ Nat.toDigitsCore 10 fuel n ds →
        c ∈ ds ∨ ∃ k, k < 10 ∧ c = Nat.digitChar k := by
  intro fuel
  induction fuel with
  | zero => intro n ds c hc; exact Or.inl hc
  | succ f ih =>
    intro n ds c hc
    have hlt : n % 10 < 10 := Nat.mod_lt _ (by norm_num)
    unfold Nat.toDigitsCore at hc
    by_cases h : n / 10 = 0
    · simp only [h, if_pos] at hc
      rcases List.mem_cons.mp hc with h1 | h1
      · exact Or.inr ⟨n % 10, hlt, h1⟩
      · exact Or.inl h1
    · rw [if_neg h] at hc
      rcases ih (n / 10) (Nat.digitChar (n % 10) :: ds) c hc with h1 | h1
      · rcases List.mem_cons.mp h1 with h2 | h2
        · exact Or.inr ⟨n % 10, hlt, h2⟩
        · exact Or.inl h2
      · exact Or.inr h1

theorem digitChar_ne_dash (k : Nat) (hk : k < 10) : Nat.digitChar k ≠ '-' := by
  interval_cases k <;> decide

theorem dash_not_mem_natRepr (n : Nat) : '-' ∉ (Nat.repr n).data := by
  intro hmem
  have h : '-' ∈ Nat.toDigitsCore 10 (n + 1) n [] := hmem
  rcases mem_toDigitsCore10 (n + 1) n [] '-' h with h1 | h1
  · exact (List.not_mem_nil _) h1
  · rcases h1 with ⟨k, hk, hkeq⟩
    exact digitChar_ne_dash k hk hkeq.symm

/-- `str` of a natural number never equals a string containing a dash, so a
numeric command argument can never collide with an option flag. -/
theorem natToString_ne {s : String} (hs : '-' ∈ s.data) (n : Nat) :
    toString n ≠ s := by
  intro h
  apply dash_not_mem_natRepr n
  have h2 : Nat.repr n = s := h
  rw [h2]
  exact hs

theorem audioEq_ne {s d : String} (hs : s.length ≠ 6 + d.length) :
    "audio=" ++ d ≠ s := by
  intro h
  apply hs
  rw [← h, String.length_append]
  have h6 : "audio=".length = 6 := rfl
  omega

theorem isInfix_append_left {α : Type} (l : List α) {i m : List α}
    (h : List.IsInfix i m) : List.IsInfix i (l ++ m) := by
  obtain ⟨s, t, rfl⟩ := h
  exact ⟨l ++ s, t, by simp⟩

theorem isInfix_append_right {α : Type} {i l : List α} (m : List α)
    (h : List.IsInfix i l) : List.IsInfix i (l ++ m) := by
  obtain ⟨s, t, rfl⟩ := h
  exact ⟨s, t ++ m, by simp⟩

theorem cleanup_done_after (s : AudioState) :
    (cleanup_audio s).cleanup_done = true := by
  unfold cleanup_audio
  split <;> simp_all

theorem cleanup_of_done {s : AudioState} (h : s.cleanup_done = true) :
    cleanup_audio s = s := by
  simp [cleanup_audio, h]

/-! Claim theorems. -/

/-- Claim C1: for every combination of the two boolean flags, the
audio-route planning step produces an AudioInput list whose length is 0 for
neither flag, 1 for system audio only, 1 for microphone only and 2 for
both; and the delay of each produced AudioInput is the fixed constant for
its role — 600 ms for system audio, 500 ms for a microphone alone,
1200 ms for a microphone paired with system audio. -/
theorem plan_lengths_and_fixed_delays :
    (audio_inputs false false).length = 0
    ∧ (audio_inputs true false).length = 1
    ∧ (audio_inputs false true).length = 1
    ∧ (audio_inputs true true).length = 2
    ∧ (audio_inputs true false).map AudioInput.delay = [600]
    ∧ (audio_inputs false true).map AudioInput.delay = [500]
    ∧ (audio_inputs true true).map AudioInput.delay = [600, 1200] := by
  decide

/-- Claim C3, counterexample: with both sources enabled the produced
AudioInputs do not carry 0-based input indices 0 and 1 — the list records
indices 1 and 2. -/
theorem both_sources_indices_not_zero_based :
    ¬ (audio_inputs true true).map AudioInput.idx = [0, 1] := by
  decide

/-- Claim C3, amended: with both sources enabled the two AudioInputs are, in
ingestion order, the system-audio input with encoder input index 1 and
delay 600 ms followed by the microphone input with encoder input index 2
and delay 1200 ms; the indices are offset by one because the desktop video
capture occupies encoder input index 0, and the delay filters address the
audio inputs as `[1:a]` and `[2:a]` accordingly. -/
theorem both_sources_inputs_ordered :
    audio_inputs true true = [⟨1, 600, "[a_sys]"⟩, ⟨2, 1200, "[a_mic]"⟩]
    ∧ (audio_inputs true true).map delayFilter
        = ["[1:a]adelay=600|600[a_sys]", "[2:a]adelay=1200|1200[a_mic]"] := by
  decide

/-- Claim C4: for every probed duration d the trim start offset is 0 when
d ≤ 4 and 4 when d > 4, and the output span passed to the re-encode always
equals the full probed duration d, not d minus the offset; the re-encode
command carries these two values as its `-ss` and `-t` argument values. -/
theorem trim_offset_and_full_span (f : String) (d : Rat) :
    (d ≤ 4 → startOffset d = 0)
    ∧ (4 < d → startOffset d = 4)
    ∧ outputSpan d = d
    ∧ (postCmd f d).get? 5 = some (toString (startOffset d))
    ∧ (postCmd f d).get? 7 = some (toString (outputSpan d)) := by
  refine ⟨?_, ?_, rfl, rfl, rfl⟩
  · intro h
    unfold startOffset
    rw [if_neg (not_lt.mpr h)]
  · intro h
    unfold startOffset
    rw [if_pos h]

/-- Witness for C4: a 2.5-second probe trims from offset 0 and a 30-second
probe from offset 4, each with the full probed duration as span. -/
theorem trim_offset_and_full_span_witness :
    startOffset (5 / 2) = 0 ∧ startOffset 30 = 4 ∧ outputSpan 30 = 30 :=
  ⟨(trim_offset_and_full_span "rec.mp4" (5 / 2)).1 (by norm_num),
   (trim_offset_and_full_span "rec.mp4" 30).2.1 (by norm_num),
   (trim_offset_and_full_span "rec.mp4" 30).2.2.1⟩

/-- Claim C7: when the probe's diagnostic text contains no line matching the
duration pattern `Duration: HH:MM:SS.ss`, post-processing fails before any
re-encode or replacement happens — the pass ends in an error and the
performed actions are exactly the probe, so the original raw output file is
never replaced by the temporary file. -/
theorem probe_parse_failure_preserves_original (f p : String)
    (h : findDuration p = none) :
    (postProcess f p).2 = Except.error "AttributeError"
    ∧ (postProcess f p).1 = [PostAction.probe [FFMPEG_EXE, "-i", f]]
    ∧ ∀ src dst, PostAction.replace src dst ∉ (postProcess f p).1 := by
  unfold postProcess
  rw [h]
  refine ⟨rfl, rfl, ?_⟩
  intro src dst hmem
  simp at hmem

/-- Witness for C7: a probe output with no duration line leaves the original
untouched — the result is the error and the only performed action is the
probe itself. -/
theorem probe_parse_failure_witness :
    (postProcess "rec.mp4" "frame=  100 fps= 15").2 = Except.error "AttributeError"
    ∧ (postProcess "rec.mp4" "frame=  100 fps= 15").1
        = [PostAction.probe [FFMPEG_EXE, "-i", "rec.mp4"]]
    ∧ ∀ src dst,
        PostAction.replace src dst ∉ (postProcess "rec.mp4" "frame=  100 fps= 15").1 :=
  probe_parse_failure_preserves_original "rec.mp4" "frame=  100 fps= 15" (by decide)

/-- Claim C8: command synthesis is deterministic — two runs over identical
inputs produce element-for-element identical argument sequences — and the
output path is the last argument of the sequence. -/
theorem build_deterministic_and_output_last (a b : Args) (h : a = b) :
    buildRecordCmd a = buildRecordCmd b
    ∧ (buildRecordCmd a).getLast? = some a.output_file := by
  subst h
  refine ⟨rfl, ?_⟩
  have hsh : buildRecordCmd a
      = (buildRecordCmdCore a ++ durationArgs a.duration) ++ [a.output_file] := by
    simp [buildRecordCmd]
  rw [hsh, List.getLast?_concat]

/-- Witness for C8 at a concrete configuration. -/
theorem build_deterministic_and_output_last_witness :
    buildRecordCmd ⟨"1920x1080", 15, true, true, true, some 5, "Mic", "rec.mp4"⟩
      = buildRecordCmd ⟨"1920x1080", 15, true, true, true, some 5, "Mic", "rec.mp4"⟩
    ∧ (buildRecordCmd ⟨"1920x1080", 15, true, true, true, some 5, "Mic", "rec.mp4"⟩).getLast?
      = some "rec.mp4" :=
  build_deterministic_and_output_last _ _ rfl

/-- Claim C9: the audio cleanup is idempotent — over any number of calls the
teardown actions (stopping the repeater, uninstalling the cable driver) run
exactly once, and every call after the first, whether it comes from normal
completion or from the console shutdown handler, leaves the state
unchanged. -/
theorem cleanup_audio_idempotent (s : AudioState) (n e : Nat)
    (he : e = 2 ∨ e = 5 ∨ e = 6) :
    cleanup_audio (cleanup_audio s) = cleanup_audio s
    ∧ cleanup_audio^[n] (cleanup_audio s) = cleanup_audio s
    ∧ console_close_handler e (cleanup_audio s) = cleanup_audio s
    ∧ cleanup_audio (console_close_handler e s) = console_close_handler e s
    ∧ (cleanup_audio^[n] (cleanup_audio initialAudioState)).trace
        = [CleanupAction.stopRepeater, CleanupAction.uninstallCable] := by
  have idem : ∀ t : AudioState, cleanup_audio (cleanup_audio t) = cleanup_audio t :=
    fun t => cleanup_of_done (cleanup_done_after t)
  have hiter : ∀ t : AudioState, cleanup_audio^[n] (cleanup_audio t) = cleanup_audio t :=
    fun t => Function.iterate_fixed (idem t) n
  have hhandler : console_close_handler e (cleanup_audio s) = cleanup_audio s := by
    unfold console_close_handler
    by_cases hcond : e = 2 ∨ e = 5 ∨ e = 6
    · rw [if_pos hcond]
      exact idem s
    · rw [if_neg hcond]
  have hhandler2 : cleanup_audio (console_close_handler e s) = console_close_handler e s := by
    unfold console_close_handler
    rw [if_pos he]
    exact idem s
  refine ⟨idem s, hiter s, hhandler, hhandler2, ?_⟩
  rw [hiter initialAudioState]
  rfl

/-- Witness for C9: from the initial state, three further calls after the
first change nothing and the trace holds each teardown action once. -/
theorem cleanup_audio_idempotent_witness :
    cleanup_audio (cleanup_audio initialAudioState) = cleanup_audio initialAudioState
    ∧ (cleanup_audio^[3] (cleanup_audio initialAudioState)).trace
        = [CleanupAction.stopRepeater, CleanupAction.uninstallCable] := by
  have h := cleanup_audio_idempotent initialAudioState 3 2 (Or.inl rfl)
  exact ⟨h.1, h.2.2.2.2⟩

/-- Claim C10: both the synthesized recording command and the
post-processing re-encode command carry the overwrite flag `-y` directly
after the executable and before the output path, which is the last argument
(the temporary sibling path for the re-encode), so an existing file there
is overwritten without prompting. -/
theorem overwrite_flag_before_output (a : Args) (f : String) (d : Rat) :
    (∃ mid, buildRecordCmd a = [FFMPEG_EXE, "-y"] ++ mid ++ [a.output_file])
    ∧ (∃ mid, postCmd f d = [FFMPEG_EXE, "-y"] ++ mid ++ [f ++ ".tmp.mp4"]) := by
  constructor
  · refine ⟨["-f", "gdigrab", "-framerate", toString a.fps, "-video_size", a.resolution,
      "-draw_mouse", if a.show_mouse then "1" else "0", "-i", "desktop"]
      ++ sysAudioArgs a ++ micAudioArgs a ++ filterComplexArgs a ++ ["-map", "0:v"]
      ++ audioMapArgs a
      ++ ["-c:v", "libx264", "-crf", "20", "-preset", "ultrafast", "-pix_fmt", "yuv420p"]
      ++ audioCodecArgs a ++ ["-threads", "0"] ++ durationArgs a.duration, ?_⟩
    simp [buildRecordCmd, buildRecordCmdCore, videoInputArgs]
  · exact ⟨["-i", f, "-ss", toString (startOffset d), "-t", toString (outputSpan d),
      "-c:v", "libx264", "-preset", "medium", "-crf", "20", "-c:a", "aac", "-b:a", "192k"],
      rfl⟩


/-- Claim C2: whenever both system audio and microphone are enabled, the
synthesized command contains exactly one channel-merge filter stage, that
merge stage appears after both per-input delay stages in the filter graph,
and the final audio map argument targets the merged `[a_out]` label and not
either intermediate delayed label. -/
theorem merge_after_delays_and_map_merged (a : Args)
    (hs : a.system_audio = true) (hm : a.microphone = true) :
    audio_filters a.system_audio a.microphone
      = ["[1:a]adelay=600|600[a_sys]", "[2:a]adelay=1200|1200[a_mic]",
         "[a_sys][a_mic]amerge=inputs=2[a_out]"]
    ∧ (audio_filters a.system_audio a.microphone).countP
        (fun f => subOccurs "amerge".data f.data) = 1
    ∧ ((audio_filters a.system_audio a.microphone).take 2).countP
        (fun f => subOccurs "adelay".data f.data) = 2
    ∧ audio_map a.system_audio a.microphone = "-map [a_out]"
    ∧ audioMapArgs a = ["-map", "[a_out]"]
    ∧ List.IsInfix ["-map", "[a_out]"] (buildRecordCmd a)
    ∧ ("[a_out]" : String) ≠ "[a_sys]" ∧ ("[a_out]" : String) ≠ "[a_mic]" := by
  rw [hs, hm]
  have hmap : audioMapArgs a = ["-map", "[a_out]"] := by
    unfold audioMapArgs
    rw [hs, hm]
    decide
  refine ⟨by decide, by decide, by decide, by decide, hmap, ?_, by decide, by decide⟩
  unfold buildRecordCmd buildRecordCmdCore
  apply isInfix_append_right
  apply isInfix_append_right
  apply isInfix_append_right
  apply isInfix_append_right
  apply isInfix_append_right
  apply isInfix_append_left
  rw [hmap]

/-- Witness for C2 at a concrete both-sources configuration. -/
theorem merge_after_delays_and_map_merged_witness :
    audio_filters true true
      = ["[1:a]adelay=600|600[a_sys]", "[2:a]adelay=1200|1200[a_mic]",
         "[a_sys][a_mic]amerge=inputs=2[a_out]"]
    ∧ (audio_filters true true).countP
        (fun f => subOccurs "amerge".data f.data) = 1
    ∧ ((audio_filters true true).take 2).countP
        (fun f => subOccurs "adelay".data f.data) = 2
    ∧ audio_map true true = "-map [a_out]"
    ∧ audioMapArgs ⟨"1920x1080", 15, true, true, false, none, "Mic", "rec.mp4"⟩
        = ["-map", "[a_out]"]
    ∧ List.IsInfix ["-map", "[a_out]"]
        (buildRecordCmd ⟨"1920x1080", 15, true, true, false, none, "Mic", "rec.mp4"⟩)
    ∧ ("[a_out]" : String) ≠ "[a_sys]" ∧ ("[a_out]" : String) ≠ "[a_mic]" :=
  merge_after_delays_and_map_merged
    ⟨"1920x1080", 15, true, true, false, none, "Mic", "rec.mp4"⟩ rfl rfl

/-- Claim C5: for every configured positive duration bound n, the
synthesized encoder command contains the hard output-duration limit
arguments `-t` followed by the value n + 4 (the 4-second startup grace
pad), and when no duration bound is configured no `-t` argument is present
anywhere in the command (provided the free-form resolution and output-path
strings are not themselves the literal `-t`). -/
theorem duration_limit_plus_grace (a : Args) :
    (∀ n : Nat, a.duration = some n → 0 < n →
        List.IsInfix ["-t", toString (n + 4)] (buildRecordCmd a))
    ∧ (a.duration = none → a.resolution ≠ "-t" → a.output_file ≠ "-t" →
        "-t" ∉ buildRecordCmd a) := by
  constructor
  · intro n hd hn
    have hn0 : n ≠ 0 := Nat.pos_iff_ne_zero.mp hn
    refine ⟨buildRecordCmdCore a, [a.output_file], ?_⟩
    simp [buildRecordCmd, durationArgs, hd, hn0]
  · intro hd hres hout
    have hfps : ¬ ("-t" = toString a.fps) :=
      fun h => natToString_ne (by decide) a.fps h.symm
    have hdev : ¬ ("-t" = "audio=" ++ a.input_device) := by
      intro h
      refine audioEq_ne (s := "-t") (d := a.input_device) ?_ h.symm
      have h2 : ("-t" : String).length = 2 := rfl
      omega
    have hres2 : ¬ ("-t" = a.resolution) := fun h => hres h.symm
    have hout2 : ¬ ("-t" = a.output_file) := fun h => hout h.symm
    have hvideo : "-t" ∉ videoInputArgs a := by
      unfold videoInputArgs
      cases a.show_mouse <;> simp [FFMPEG_EXE, hfps, hres2]
    have hsysargs : "-t" ∉ sysAudioArgs a := by
      unfold sysAudioArgs
      cases a.system_audio <;> decide
    have hmicargs : "-t" ∉ micAudioArgs a := by
      unfold micAudioArgs
      cases a.microphone
      · simp
      · simp [hdev]
    have hfc : "-t" ∉ filterComplexArgs a := by
      unfold filterComplexArgs
      cases a.system_audio <;> cases a.microphone <;> decide
    have hmapargs : "-t" ∉ audioMapArgs a := by
      unfold audioMapArgs
      cases a.system_audio <;> cases a.microphone <;> decide
    have hca : "-t" ∉ audioCodecArgs a := by
      unfold audioCodecArgs
      cases a.system_audio <;> cases a.microphone <;> decide
    intro hmem
    simp only [buildRecordCmd, buildRecordCmdCore, hd, durationArgs,
               List.append_assoc, List.append_nil, List.nil_append,
               List.mem_append, List.mem_singleton] at hmem
    rcases hmem with h | h | h | h | h | h | h | h | h | h
    · exact hvideo h
    · exact hsysargs h
    · exact hmicargs h
    · exact hfc h
    · exact (by decide : "-t" ∉ (["-map", "0:v"] : List String)) h
    · exact hmapargs h
    · exact (by decide : "-t" ∉
        (["-c:v", "libx264", "-crf", "20", "-preset", "ultrafast", "-pix_fmt",
          "yuv420p"] : List String)) h
    · exact hca h
    · exact (by decide : "-t" ∉ (["-threads", "0"] : List String)) h
    · exact hout2 h

/-- Claim C6: when neither system audio nor the microphone is enabled, the
synthesized encoder command contains exactly one input flag `-i` (the
desktop video capture), no `-filter_complex` argument, no audio map (its
only `-map` is the video map, which targets `0:v`) and no audio-codec
arguments, while the video stream map and the video codec arguments are
still present (provided the free-form resolution and output-path strings
are not themselves one of these literal flags). -/
theorem no_audio_command_shape (a : Args)
    (hs : a.system_audio = false) (hm : a.microphone = false)
    (hres : a.resolution ∉ (["-i", "-map", "-filter_complex", "-c:a"] : List String))
    (hout : a.output_file ∉ (["-i", "-map", "-filter_complex", "-c:a"] : List String)) :
    (buildRecordCmd a).count "-i" = 1
    ∧ "-filter_complex" ∉ buildRecordCmd a
    ∧ (buildRecordCmd a).count "-map" = 1
    ∧ List.IsInfix ["-map", "0:v"] (buildRecordCmd a)
    ∧ "-c:a" ∉ buildRecordCmd a
    ∧ List.IsInfix ["-c:v", "libx264"] (buildRecordCmd a) := by
  simp only [List.mem_cons, List.not_mem_nil, or_false, not_or] at hres hout
  obtain ⟨hres_i, hres_map, hres_fc, hres_ca⟩ := hres
  obtain ⟨hout_i, hout_map, hout_fc, hout_ca⟩ := hout
  have hsys0 : sysAudioArgs a = [] := by simp [sysAudioArgs, hs]
  have hmic0 : micAudioArgs a = [] := by simp [micAudioArgs, hm]
  have hfc0 : filterComplexArgs a = [] := by
    unfold filterComplexArgs
    rw [hs, hm]
    decide
  have ham0 : audioMapArgs a = [] := by
    unfold audioMapArgs
    rw [hs, hm]
    decide
  have hca0 : audioCodecArgs a = [] := by
    unfold audioCodecArgs
    rw [hs, hm]
    decide
  have hfps_i : toString a.fps ≠ "-i" := natToString_ne (by decide) a.fps
  have hfps_map : toString a.fps ≠ "-map" := natToString_ne (by decide) a.fps
  have hfps_fc : toString a.fps ≠ "-filter_complex" := natToString_ne (by decide) a.fps
  have hfps_ca : toString a.fps ≠ "-c:a" := natToString_ne (by decide) a.fps
  have hdurmem : ∀ x : String, x ∈ durationArgs a.duration →
      x = "-t" ∨ ∃ k : Nat, x = toString k := by
    intro x hx
    rcases hdd : a.duration with _ | d
    · rw [hdd] at hx
      exact absurd hx (List.not_mem_nil x)
    · rw [hdd] at hx
      rw [show durationArgs (some d)
            = if d ≠ 0 then ["-t", toString (d + 4)] else [] from rfl] at hx
      by_cases hd0 : d = 0
      · rw [if_neg (not_not_intro hd0)] at hx
        exact absurd hx (List.not_mem_nil x)
      · rw [if_pos hd0] at hx
        rcases List.mem_cons.mp hx with h | h
        · exact Or.inl h
        · exact Or.inr ⟨d + 4, List.mem_singleton.mp h⟩
  have hdurnot : ∀ x : String, x ≠ "-t" → '-' ∈ x.data →
      x ∉ durationArgs a.duration := by
    intro x hxt hxd hmem2
    rcases hdurmem x hmem2 with h | ⟨k, hk⟩
    · exact hxt h
    · exact natToString_ne hxd k hk.symm
  have hdur_i : (durationArgs a.duration).count "-i" = 0 :=
    List.count_eq_zero.mpr (hdurnot "-i" (by decide) (by decide))
  have hdur_map : (durationArgs a.duration).count "-map" = 0 :=
    List.count_eq_zero.mpr (hdurnot "-map" (by decide) (by decide))
  have hdur_fc : "-filter_complex" ∉ durationArgs a.duration :=
    hdurnot "-filter_complex" (by decide) (by decide)
  have hdur_ca : "-c:a" ∉ durationArgs a.duration :=
    hdurnot "-c:a" (by decide) (by decide)
  have hv_i : (videoInputArgs a).count "-i" = 1 := by
    unfold videoInputArgs
    cases a.show_mouse <;>
      simp [List.count_cons, FFMPEG_EXE, hfps_i, hres_i]
  have hv_map : (videoInputArgs a).count "-map" = 0 := by
    unfold videoInputArgs
    cases a.show_mouse <;>
      simp [List.count_cons, FFMPEG_EXE, hfps_map, hres_map]
  have hv_fc : "-filter_complex" ∉ videoInputArgs a := by
    unfold videoInputArgs
    cases a.show_mouse <;>
      simp [FFMPEG_EXE, Ne.symm hfps_fc, Ne.symm hres_fc]
  have hv_ca : "-c:a" ∉ videoInputArgs a := by
    unfold videoInputArgs
    cases a.show_mouse <;>
      simp [FFMPEG_EXE, Ne.symm hfps_ca, Ne.symm hres_ca]
  refine ⟨?_, ?_, ?_, ?_, ?_, ?_⟩
  · simp [buildRecordCmd, buildRecordCmdCore, hsys0, hmic0, hfc0, ham0, hca0,
          List.count_append, hv_i, hdur_i, List.count_cons, hout_i]
  · intro hmem
    simp only [buildRecordCmd, buildRecordCmdCore, hsys0, hmic0, hfc0, ham0, hca0,
               List.append_assoc, List.append_nil, List.nil_append,
               List.mem_append, List.mem_singleton] at hmem
    rcases hmem with h | h | h | h | h | h
    · exact hv_fc h
    · exact (by decide : "-filter_complex" ∉ (["-map", "0:v"] : List String)) h
    · exact (by decide : "-filter_complex" ∉
        (["-c:v", "libx264", "-crf", "20", "-preset", "ultrafast", "-pix_fmt",
          "yuv420p"] : List String)) h
    · exact (by decide : "-filter_complex" ∉ (["-threads", "0"] : List String)) h
    · exact hdur_fc h
    · exact (Ne.symm hout_fc) h
  · simp [buildRecordCmd, buildRecordCmdCore, hsys0, hmic0, hfc0, ham0, hca0,
          List.count_append, hv_map, hdur_map, List.count_cons, hout_map]
  · unfold buildRecordCmd buildRecordCmdCore
    apply isInfix_append_right
    apply isInfix_append_right
    apply isInfix_append_right
    apply isInfix_append_right
    apply isInfix_append_right
    apply isInfix_append_right
    apply isInfix_append_left
    exact List.infix_refl _
  · intro hmem
    simp only [buildRecordCmd, buildRecordCmdCore, hsys0, hmic0, hfc0, ham0, hca0,
               List.append_assoc, List.append_nil, List.nil_append,
               List.mem_append, List.mem_singleton] at hmem
    rcases hmem with h | h | h | h | h | h
    · exact hv_ca h
    · exact (by decide : "-c:a" ∉ (["-map", "0:v"] : List String)) h
    · exact (by decide : "-c:a" ∉
        (["-c:v", "libx264", "-crf", "20", "-preset", "ultrafast", "-pix_fmt",
          "yuv420p"] : List String)) h
    · exact (by decide : "-c:a" ∉ (["-threads", "0"] : List String)) h
    · exact hdur_ca h
    · exact (Ne.symm hout_ca) h
  · unfold buildRecordCmd buildRecordCmdCore
    apply isInfix_append_right
    apply isInfix_append_right
    apply isInfix_append_right
    apply isInfix_append_right
    apply isInfix_append_left
    exact ⟨[], ["-crf", "20", "-preset", "ultrafast", "-pix_fmt", "yuv420p"], rfl⟩

/-- Witness for C5: with a 5-second bound the command carries `-t 9`; with
no bound and an ordinary configuration it carries no `-t` at all. -/
theorem duration_limit_plus_grace_witness :
    List.IsInfix ["-t", "9"]
      (buildRecordCmd ⟨"1920x1080", 15, false, false, false, some 5, "", "rec.mp4"⟩)
    ∧ "-t" ∉ buildRecordCmd ⟨"1920x1080", 15, false, false, false, none, "", "rec.mp4"⟩ := by
  constructor
  · have h := (duration_limit_plus_grace
      ⟨"1920x1080", 15, false, false, false, some 5, "", "rec.mp4"⟩).1 5 rfl (by norm_num)
    have h9 : toString (5 + 4 : Nat) = "9" := rfl
    rw [h9] at h
    exact h
  · exact (duration_limit_plus_grace
      ⟨"1920x1080", 15, false, false, false, none, "", "rec.mp4"⟩).2 rfl
      (by decide) (by decide)

/-- Witness for C6 at a concrete silent-capture configuration. -/
theorem no_audio_command_shape_witness :
    (buildRecordCmd ⟨"1920x1080", 15, false, false, false, some 5, "", "rec.mp4"⟩).count "-i" = 1
    ∧ "-filter_complex"
        ∉ buildRecordCmd ⟨"1920x1080", 15, false, false, false, some 5, "", "rec.mp4"⟩
    ∧ (buildRecordCmd ⟨"1920x1080", 15, false, false, false, some 5, "", "rec.mp4"⟩).count "-map" = 1
    ∧ List.IsInfix ["-map", "0:v"]
        (buildRecordCmd ⟨"1920x1080", 15, false, false, false, some 5, "", "rec.mp4"⟩)
    ∧ "-c:a" ∉ buildRecordCmd ⟨"1920x1080", 15, false, false, false, some 5, "", "rec.mp4"⟩
    ∧ List.IsInfix ["-c:v", "libx264"]
        (buildRecordCmd ⟨"1920x1080", 15, false, false, false, some 5, "", "rec.mp4"⟩) :=
  no_audio_command_shape ⟨"1920x1080", 15, false, false, false, some 5, "", "rec.mp4"⟩
    rfl rfl (by decide) (by decide)
